import Mathlib

/-!
Verification development for the MCP client/orchestration layer
(`backend/mcp_client.py`).

The Python module is embedded shallowly: each coroutine becomes a pure
function on an explicit state record.  External effects (spawning the
subprocess, writing to its stdin, the arrival or non-arrival of a reply
before the 30 s deadline) are abstracted into explicit parameters
(`ConnectEnv`, the `timely : Option MCPOutcome` oracle), while all the
logic the module itself performs — the pending-request correlation table,
the request-id counter, the tool catalog, configuration loading, and the
qualified-name routing — is translated line by line from the source.
-/

set_option autoImplicit false

/-- JSON values, at the granularity the module inspects them: the reader
parses each line into a value, `result`/`error` fields are looked up, and
`connect` tests Python truthiness of the `initialize` result. -/
inductive JVal where
  | null
  | bool (b : Bool)
  | num (n : Int)
  | str (s : String)
  | arr (xs : List JVal)
  | obj (kvs : List (String × JVal))

/-- Python truthiness of a JSON value (`if init_result:` in `connect`). -/
def JVal.truthy : JVal → Bool
  | .null => false
  | .bool b => b
  | .num n => n != 0
  | .str s => s != ""
  | .arr xs => !xs.isEmpty
  | .obj kvs => !kvs.isEmpty

/-- Truthiness of `message.get(k)`-style optional values: Python `None`
(absent key) is falsy. -/
def truthyOpt : Option JVal → Bool
  | none => false
  | some v => v.truthy

/-- Dictionary lookup on a JSON object (`d.get(k)` / `d[k]`). -/
def jlookup (kvs : List (String × JVal)) (k : String) : Option JVal :=
  (kvs.find? (fun p => p.1 == k)).map (fun p => p.2)

/-- Configuration for an MCP server (`MCPServerConfig`, lines 16-23). -/
structure MCPServerConfig where
  name : String
  command : String
  args : List String
  env : List (String × String)
  enabled : Bool
deriving DecidableEq

/-- A tool advertised by an MCP server (`MCPTool`, lines 26-32). -/
structure MCPTool where
  name : String
  description : String
  input_schema : JVal
  server_name : String

/-- Outcome delivered through a pending-request future: the reader either
sets an exception from the `error` field or sets the `result` field
(`_read_responses`, lines 130-133).  `result` is `none` when the reply
carried no `result` key (Python `message.get("result")` gives `None`). -/
inductive MCPOutcome where
  | failure (msg : String)
  | success (result : Option JVal)

/-- The fields of a parsed inbound JSON-RPC line that `_read_responses`
inspects: the correlation `id`, the `error` field's message (if an `error`
key is present), and the `result` field (if present). -/
structure RpcMessage where
  id? : Option Nat
  error? : Option String
  result? : Option JVal

/-- One line read from the child's stdout: either text that fails JSON
parsing (dropped, loop continues) or a parsed message. -/
inductive MCPLine where
  | garbage
  | msg (m : RpcMessage)

/-- Exceptions the module raises, tagged by site. -/
inductive MCPError where
  | noProcess
  | spawnFailed (command : String)
  | notifyFailed
  | requestTimeout (method : String)
  | remoteError (msg : String)
  | notConnected (server : String)
  | invalidToolName (full : String)
  | invalidToolNameFormat (full : String)
  | serverNotConnected (server : String)
deriving DecidableEq

/-- Mutable state of one `MCPClient` (lines 38-45): the process handle,
the reader task, the tool catalog, the per-session request-id counter, the
pending-request table (keyed by request id; Python dict keys are unique,
so removal is modelled by filtering the key out), and the connected flag. -/
structure MCPClientState where
  config : MCPServerConfig
  processAlive : Bool
  readerRunning : Bool
  tools : List MCPTool
  requestId : Nat
  pending : List Nat
  connected : Bool

/-- A freshly constructed `MCPClient(config)` (lines 38-45). -/
def MCPClient.new (config : MCPServerConfig) : MCPClientState :=
  { config := config
  , processAlive := false
  , readerRunning := false
  , tools := []
  , requestId := 0
  , pending := []
  , connected := false }

/-- One iteration of the background reader loop on one inbound line
(`_read_responses`, lines 124-136): a parse failure is dropped; a message
whose `id` matches a pending entry pops that entry and resolves its future
(an `error` field gives a failure outcome, otherwise the `result` field
gives a success outcome); any other message is dropped.  Returns the new
state and the outcome delivered, if any. -/
def MCPClient.processLine (st : MCPClientState) (l : MCPLine) :
    MCPClientState × Option (Nat × MCPOutcome) :=
  match l with
  | .garbage => (st, none)
  | .msg m =>
    match m.id? with
    | none => (st, none)
    | some i =>
      if i ∈ st.pending then
        ({ st with pending := st.pending.filter (fun j => j != i) },
         some (i, match m.error? with
                  | some e => .failure e
                  | none => .success m.result?))
      else (st, none)

/-- Sending one JSON-RPC request (`_send_request`, lines 143-169).  With no
process handle it raises "Not connected to MCP server".  Otherwise it
increments the id counter, registers the new id in the pending table (dict
assignment), writes the envelope, and awaits the future for up to 30 s.
The await's outcome is the oracle `timely`: `some out` means the reader
resolved the future in time (having already popped the entry, see
`processLine`); `none` means the deadline passed, in which case the entry
is evicted (`pop(request_id, None)`) and a timeout exception is raised. -/
def MCPClient.sendRequest (st : MCPClientState) (method : String)
    (timely : Option MCPOutcome) : MCPClientState × Except MCPError (Option JVal) :=
  if st.processAlive = false then
    (st, .error .noProcess)
  else
    let rid := st.requestId + 1
    let stReg : MCPClientState :=
      { st with requestId := rid, pending := rid :: st.pending.filter (fun j => j != rid) }
    match timely with
    | some (.failure e) =>
      ({ stReg with pending := stReg.pending.filter (fun j => j != rid) },
       .error (.remoteError e))
    | some (.success r) =>
      ({ stReg with pending := stReg.pending.filter (fun j => j != rid) },
       .ok r)
    | none =>
      ({ stReg with pending := stReg.pending.filter (fun j => j != rid) },
       .error (.requestTimeout method))

/-- Parsing one entry of the `tools` array (`_fetch_tools`, lines 192-199):
`tool_data["name"]` must be present (a missing key raises `KeyError`),
`description` defaults to `""`, `inputSchema` defaults to the empty
object.  `none` marks the entry whose access raises. -/
def MCPClient.parseToolEntry (server : String) : JVal → Option MCPTool
  | .obj kvs =>
    match jlookup kvs "name" with
    | some (.str n) =>
      some { name := n
           , description :=
               match jlookup kvs "description" with
               | some (.str d) => d
               | _ => ""
           , input_schema := (jlookup kvs "inputSchema").getD (.obj [])
           , server_name := server }
    | _ => none
  | _ => none

/-- The `for tool_data in ...: self.tools.append(...)` loop: tools are
appended one at a time, so an entry that raises aborts the loop keeping
the entries appended before it (the exception is caught by `_fetch_tools`). -/
def MCPClient.collectTools (server : String) : List JVal → List MCPTool
  | [] => []
  | v :: rest =>
    match MCPClient.parseToolEntry server v with
    | some t => t :: MCPClient.collectTools server rest
    | none => []

/-- Extracting `result.get("tools", [])` (line 192): `none` marks the
shapes on which the attribute access or the iteration raises (result is
`None` or not an object, or `tools` maps to a non-array). -/
def MCPClient.toolsOfResult (r : Option JVal) : Option (List JVal) :=
  match r with
  | some (.obj kvs) =>
    match jlookup kvs "tools" with
    | some (.arr xs) => some xs
    | none => some []
    | some _ => none
  | _ => none

/-- Effect of `_fetch_tools` (lines 186-202) given the reply behavior of
its `tools/list` request.  A send failure (timeout or remote error) raises
before `self.tools = []` runs, so the catalog is untouched; on a success
reply the catalog is first reset to `[]` and then filled entry by entry,
any parse failure aborting the loop; every exception is caught inside
`_fetch_tools`, so the function always returns normally. -/
def MCPClient.fetchToolsApply (st : MCPClientState) (reply : Option MCPOutcome) :
    MCPClientState :=
  match reply with
  | none => st
  | some (.failure _) => st
  | some (.success r) =>
    { st with tools :=
        match MCPClient.toolsOfResult r with
        | none => []
        | some xs => MCPClient.collectTools st.config.name xs }

/-- External behavior available to one `connect()` run: whether the spawn
succeeds, the reply behavior of the `initialize` request, whether writing
the `initialized` notification succeeds, and the reply behavior of the
`tools/list` request. -/
structure ConnectEnv where
  spawnOk : Bool
  initReply : Option MCPOutcome
  notifyOk : Bool
  toolsReply : Option MCPOutcome

/-- Body of `connect()` before its `try/except` (lines 49-88): spawn the
process, start the reader, send `initialize`; on a truthy reply send the
`initialized` notification, set `connected`, fetch tools (failures
swallowed inside `_fetch_tools`) and return `true`; on a falsy reply
return `false`.  The `Except` layer is the exception channel of the body:
an `.error` is an exception reaching the `except` clause. -/
def MCPClient.connectAux (st : MCPClientState) (env : ConnectEnv) :
    MCPClientState × Except MCPError Bool :=
  if env.spawnOk = false then
    (st, .error (.spawnFailed st.config.command))
  else
    let st1 : MCPClientState := { st with processAlive := true, readerRunning := true }
    match MCPClient.sendRequest st1 "initialize" env.initReply with
    | (st2, .error e) => (st2, .error e)
    | (st2, .ok initResult) =>
      if truthyOpt initResult then
        if env.notifyOk = false then
          (st2, .error .notifyFailed)
        else
          let st3 : MCPClientState := { st2 with connected := true }
          (MCPClient.fetchToolsApply st3 env.toolsReply, .ok true)
      else
        (st2, .ok false)

/-- The full `connect()` (lines 47-92): the body wrapped in the
`try/except Exception` that converts any exception into a `false` return.
The `Except` layer in the result type is `connect`'s own exception
channel toward its caller. -/
def MCPClient.connect (st : MCPClientState) (env : ConnectEnv) :
    MCPClientState × Except MCPError Bool :=
  match MCPClient.connectAux st env with
  | (st', .ok b) => (st', .ok b)
  | (st', .error _) => (st', .ok false)

/-- The `disconnect()` teardown (lines 94-114): clear `connected`, cancel
the reader (cancellation swallowed), terminate/kill the process and drop
the handle, clear the tool list.  The pending table and the id counter are
not touched. -/
def MCPClient.disconnect (st : MCPClientState) : MCPClientState :=
  { st with connected := false, readerRunning := false, processAlive := false, tools := [] }

/-- The `call_tool` entry point (lines 204-214): requires `connected`,
otherwise raises immediately without sending; when connected it sends a
`tools/call` request.  The tool name and arguments only enter the wire
payload, so the argument value is not tracked. -/
def MCPClient.call_tool (st : MCPClientState) (toolName : String) (args : JVal)
    (timely : Option MCPOutcome) : MCPClientState × Except MCPError (Option JVal) :=
  if st.connected = false then
    (st, .error (.notConnected st.config.name))
  else
    match toolName, args with
    | _, _ => MCPClient.sendRequest st "tools/call" timely

/-- The `list_resources` entry point (lines 216-226): when not connected
it returns the empty list without sending; when connected it sends a
`resources/list` request, returning `result.get("resources", [])` on
success and catching every send failure into an empty-list return. -/
def MCPClient.list_resources (st : MCPClientState) (timely : Option MCPOutcome) :
    MCPClientState × Except MCPError (List JVal) :=
  if st.connected = false then
    (st, .ok [])
  else
    match MCPClient.sendRequest st "resources/list" timely with
    | (st', .ok r) =>
      (st', .ok (match r with
                 | some (.obj kvs) =>
                   match jlookup kvs "resources" with
                   | some (.arr xs) => xs
                   | _ => []
                 | _ => []))
    | (st', .error _) => (st', .ok [])

/-- The `read_resource` entry point (lines 228-234): requires `connected`,
otherwise raises immediately without sending; when connected it sends a
`resources/read` request and returns its result. -/
def MCPClient.read_resource (st : MCPClientState) (uri : String)
    (timely : Option MCPOutcome) : MCPClientState × Except MCPError (Option JVal) :=
  if st.connected = false then
    (st, .error (.notConnected st.config.name))
  else
    match uri with
    | _ => MCPClient.sendRequest st "resources/read" timely

/-- Mutable state of the `MCPManager` (lines 240-243): the registry of
live clients (a dict keyed by server name, modelled as an association
list with dict semantics), the config list, and the initialized flag. -/
structure MCPManagerState where
  clients : List (String × MCPClientState)
  configs : List MCPServerConfig
  initializedFlag : Bool

/-- A freshly constructed `MCPManager()`. -/
def MCPManager.new : MCPManagerState :=
  { clients := [], configs := [], initializedFlag := false }

/-- Dictionary read `self.clients.get(name)` / `self.clients[name]`. -/
def MCPManager.getClient (cs : List (String × MCPClientState)) (n : String) :
    Option MCPClientState :=
  (cs.find? (fun p => p.1 == n)).map (fun p => p.2)

/-- Dictionary write `self.clients[n] = c`: replaces the value when the
key is present, appends otherwise. -/
def MCPManager.setClient (cs : List (String × MCPClientState)) (n : String)
    (c : MCPClientState) : List (String × MCPClientState) :=
  if cs.any (fun p => p.1 == n) then
    cs.map (fun p => if p.1 == n then (n, c) else p)
  else
    cs ++ [(n, c)]

/-- Dictionary delete `del self.clients[n]`: dict keys are unique, so the
key is filtered out. -/
def MCPManager.delClient (cs : List (String × MCPClientState)) (n : String) :
    List (String × MCPClientState) :=
  cs.filter (fun p => p.1 != n)

/-- One raw server entry as it appears in the JSON config file: the
optional fields the loader reads with `.get`, with absent `args`/`env`
collapsed to their empty defaults. -/
structure RawEntry where
  name? : Option String
  command? : Option String
  args : List String
  env : List (String × String)
  enabled? : Option Bool
deriving DecidableEq

/-- Shape of the configuration document (`load_config_from_file`): either
an array of explicit entries under `"mcpServers"` or `"servers"`, or a
name-keyed object map under `"mcpServers"`.  When the value is an object,
the first loop of the loader iterates over its keys — plain strings that
fail the `isinstance(server_data, dict)` test — and contributes nothing. -/
inductive ConfigSource where
  | arrayForm (entries : List RawEntry)
  | objectForm (entries : List (String × RawEntry))

/-- The first loop of `load_config_from_file` (lines 256-267) applied to
an array of entries: entries carrying a `command` become configs, with
`name` defaulting to `"unnamed"` and `enabled` to `true`. -/
def MCPManager.loadArrayForm (entries : List RawEntry) : List MCPServerConfig :=
  entries.filterMap fun e =>
    e.command?.map fun c =>
      { name := e.name?.getD "unnamed"
      , command := c
      , args := e.args
      , env := e.env
      , enabled := e.enabled?.getD true }

/-- The second loop of `load_config_from_file` (lines 270-282) over the
name-keyed object form: entries carrying a `command` become configs named
by their key, except that a key equal to an already-loaded config's name
is skipped as a duplicate. -/
def MCPManager.loadObjectForm (acc : List MCPServerConfig) :
    List (String × RawEntry) → List MCPServerConfig
  | [] => acc
  | (n, e) :: rest =>
    match e.command? with
    | none => MCPManager.loadObjectForm acc rest
    | some c =>
      if acc.any (fun cfg => cfg.name == n) then
        MCPManager.loadObjectForm acc rest
      else
        MCPManager.loadObjectForm
          (acc ++ [{ name := n
                   , command := c
                   , args := e.args
                   , env := e.env
                   , enabled := e.enabled?.getD true }]) rest

/-- The configs produced by `load_config_from_file` (lines 245-287) on a
document of either shape.  On the array form only the first loop runs (the
second loop's `isinstance(..., dict)` test fails); on the object form the
first loop iterates over the map's keys and contributes nothing, and the
second loop runs from an empty accumulator. -/
def MCPManager.load_config_from_file : ConfigSource → List MCPServerConfig
  | .arrayForm entries => MCPManager.loadArrayForm entries
  | .objectForm entries => MCPManager.loadObjectForm [] entries

/-- One iteration of the `connect_all` loop (lines 295-308): skip a
disabled config or a name already registered; otherwise build a fresh
client and attempt `connect`, registering the client only on a `true`
return.  `connect` never raises (its channel is always `.ok`), and the
surrounding `try/except` would swallow an exception anyway, leaving the
registry untouched. -/
def MCPManager.connectAllStep (env : String → ConnectEnv) (m : MCPManagerState)
    (cfg : MCPServerConfig) : MCPManagerState :=
  if cfg.enabled = false then m
  else if m.clients.any (fun p => p.1 == cfg.name) then m
  else
    match MCPClient.connect (MCPClient.new cfg) (env cfg.name) with
    | (st, .ok true) => { m with clients := MCPManager.setClient m.clients cfg.name st }
    | (_, .ok false) => m
    | (_, .error _) => m

/-- The full `connect_all` (lines 293-310): fold the step over the config
list in order, then set the initialized flag. -/
def MCPManager.connect_all (m : MCPManagerState) (env : String → ConnectEnv) :
    MCPManagerState :=
  { m.configs.foldl (MCPManager.connectAllStep env) m with initializedFlag := true }

/-- The `disconnect_all` teardown (lines 312-317): every client is
disconnected and the registry cleared. -/
def MCPManager.disconnect_all (m : MCPManagerState) : MCPManagerState :=
  { m with clients := [], initializedFlag := false }

/-- The `reconnect` operation (lines 319-333): disconnect and delete any
existing client under the name, then look the name up in the config list;
with no config, return `false`; otherwise build and connect a fresh
client, registering it only on a `true` return. -/
def MCPManager.reconnect (m : MCPManagerState) (name : String) (env : ConnectEnv) :
    MCPManagerState × Bool :=
  let m1 : MCPManagerState :=
    if m.clients.any (fun p => p.1 == name) then
      { m with clients := MCPManager.delClient m.clients name }
    else m
  match m.configs.find? (fun c => c.name == name) with
  | none => (m1, false)
  | some cfg =>
    match MCPClient.connect (MCPClient.new cfg) env with
    | (st, .ok true) => ({ m1 with clients := MCPManager.setClient m1.clients name st }, true)
    | (_, _) => (m1, false)

/-- The catalog flattening of `get_all_tools` (lines 335-340). -/
def MCPManager.get_all_tools (m : MCPManagerState) : List MCPTool :=
  m.clients.foldl (fun acc p => acc ++ p.2.tools) []

/-- Qualified-name construction used by `get_tools_for_llm` (line 347):
`"mcp_" + server_name + "_" + tool_name`. -/
def MCPManager.qualify (server tool : String) : String :=
  "mcp_" ++ server ++ "_" ++ tool

/-- Python `s.split("_", 1)` restricted to the two-part case: split at the
first underscore, or fail when the string has none (`len(parts) != 2`). -/
def MCPManager.splitOnce : List Char → Option (List Char × List Char)
  | [] => none
  | c :: rest =>
    if c = '_' then some ([], rest)
    else (MCPManager.splitOnce rest).map fun p => (c :: p.1, p.2)

/-- Qualified-name parsing used by `Manager.call_tool` (lines 361-368):
require the `"mcp_"` marker, drop it, and split the remainder once on the
first underscore into (server, tool). -/
def MCPManager.dequalify (full : String) : Option (String × String) :=
  match full.data with
  | 'm' :: 'c' :: 'p' :: '_' :: rest =>
    (MCPManager.splitOnce rest).map fun p => (String.mk p.1, String.mk p.2)
  | _ => none

/-- One entry of the LLM function-calling schema (lines 348-355). -/
structure LLMToolEntry where
  name : String
  description : String
  parameters : JVal

/-- The `get_tools_for_llm` aggregation (lines 342-356): every tool of
every registered client, name-qualified with its owning server. -/
def MCPManager.get_tools_for_llm (m : MCPManagerState) : List LLMToolEntry :=
  (MCPManager.get_all_tools m).map fun t =>
    { name := MCPManager.qualify t.server_name t.name
    , description := "[MCP:" ++ t.server_name ++ "] " ++ t.description
    , parameters := t.input_schema }

/-- The `Manager.call_tool` router (lines 358-373): parse the qualified
name (raising on a missing marker or a split that does not give two
parts), require a live client under the server name, and forward the call
to it. -/
def MCPManager.call_tool (m : MCPManagerState) (full : String) (args : JVal)
    (timely : Option MCPOutcome) : Except MCPError (Option JVal) :=
  match MCPManager.dequalify full with
  | none => .error (.invalidToolName full)
  | some (server, tool) =>
    match MCPManager.getClient m.clients server with
    | none => .error (.serverNotConnected server)
    | some cl => (MCPClient.call_tool cl tool args timely).2

/-- A sample server configuration used by the concrete witness states. -/
def sampleConfig : MCPServerConfig :=
  { name := "fs", command := "npx", args := [], env := [], enabled := true }

/-- A connected-process client with one pending request (id 1). -/
def c1State : MCPClientState :=
  { MCPClient.new sampleConfig with processAlive := true, pending := [1] }

/-- The state after the reader resolves request 1. -/
def c1StateAfter : MCPClientState :=
  { c1State with pending := [] }

/-- A reply line carrying id 1 and a numeric result. -/
def c1Msg : MCPLine :=
  .msg { id? := some 1, error? := none, result? := some (.num 7) }

/-- A client with a live process and a fresh id counter. -/
def c2State : MCPClientState :=
  { MCPClient.new sampleConfig with processAlive := true }

/-- A late reply carrying the id (1) of the request that timed out. -/
def c2Late : RpcMessage :=
  { id? := some 1, error? := none, result? := some (.str "late") }

/-- A never-connected client (fresh construction, `connected = false`). -/
def c3State : MCPClientState :=
  MCPClient.new sampleConfig

/-- A connect-run environment in which the spawn, the handshake and the
notification succeed but the `tools/list` discovery request fails with a
remote error. -/
def c9Env : ConnectEnv :=
  { spawnOk := true
  , initReply := some (.success (some (.bool true)))
  , notifyOk := true
  , toolsReply := some (.failure "boom") }

/-- A connect-run environment where everything succeeds but tool
discovery returns a remote error. -/
def c6Env : ConnectEnv :=
  { spawnOk := true
  , initReply := some (.success (some (.bool true)))
  , notifyOk := true
  , toolsReply := some (.failure "discovery failed") }

/-- A connect-run environment whose process spawn fails. -/
def c6FailEnv : ConnectEnv :=
  { spawnOk := false, initReply := none, notifyOk := true, toolsReply := none }

/-- An enabled configuration whose launch command does not exist. -/
def c7BadConfig : MCPServerConfig :=
  { name := "bad", command := "no-such-command", args := [], env := [], enabled := true }

/-- A connect-run environment where spawn, handshake, notification and
discovery (a timeout, swallowed) behave as for a healthy server. -/
def c7GoodEnv : ConnectEnv :=
  { spawnOk := true
  , initReply := some (.success (some (.bool true)))
  , notifyOk := true
  , toolsReply := none }

/-- A connect-run environment whose process spawn fails (nonexistent
command). -/
def c7BadEnv : ConnectEnv :=
  { spawnOk := false, initReply := none, notifyOk := true, toolsReply := none }

/-- Per-server environment: the `fs` server behaves, every other command
fails to spawn. -/
def c7Env : String → ConnectEnv :=
  fun n => if n = "fs" then c7GoodEnv else c7BadEnv

/-- The client state `connect` produces for `sampleConfig` under
`c7GoodEnv`. -/
def c7StateA : MCPClientState :=
  { config := sampleConfig
  , processAlive := true
  , readerRunning := true
  , tools := []
  , requestId := 1
  , pending := []
  , connected := true }

/-- A manager with one live client and one config, neither named
`ghost`. -/
def c10Manager : MCPManagerState :=
  { clients := [("fs", c1State)], configs := [sampleConfig], initializedFlag := true }

/-- An arbitrary connect-run environment for the reconnect witness. -/
def c10Env : ConnectEnv :=
  { spawnOk := false, initReply := none, notifyOk := true, toolsReply := none }

/-- The config produced from one name-keyed object entry, used to state
what both loader loops produce entrywise. -/
def objEntryConfig (p : String × RawEntry) : Option MCPServerConfig :=
  p.2.command?.map fun c =>
    { name := p.1
    , command := c
    , args := p.2.args
    , env := p.2.env
    , enabled := p.2.enabled?.getD true }

/-- A full raw entry named `a`. -/
def c5EntryA : RawEntry :=
  { name? := some "a", command? := some "ca", args := ["x"], env := [], enabled? := some true }

/-- A full raw entry named `b`. -/
def c5EntryB : RawEntry :=
  { name? := some "b", command? := some "cb", args := [], env := [("K", "V")], enabled? := none }

/-- A keyed server set in one order. -/
def c5Entries : List (String × RawEntry) :=
  [("a", c5EntryA), ("b", c5EntryB)]

/-- The same keyed server set in the other order. -/
def c5EntriesRev : List (String × RawEntry) :=
  [("b", c5EntryB), ("a", c5EntryA)]

/-- An accumulator already holding a config named `a`. -/
def c5Acc : List MCPServerConfig :=
  [{ name := "a", command := "ca", args := ["x"], env := [], enabled := true }]

/- ### Theorems -/

/-- Claim C1: the pending-request correlation table delivers at most one
outcome per request id — when the reader processes a line whose id matches
a pending entry it resolves that entry (an `error` field gives a failure
outcome, otherwise the `result` field gives a success outcome) and removes
it from the table, so processing the same reply again delivers nothing: a
timely reply is resolved exactly once and never twice. -/
theorem pending_resolution_exactly_once
    (st st' : MCPClientState) (l : MCPLine) (i : Nat) (out : MCPOutcome)
    (h : MCPClient.processLine st l = (st', some (i, out))) :
    i ∉ st'.pending ∧
    MCPClient.processLine st' l = (st', none) ∧
    ∃ m : RpcMessage, l = MCPLine.msg m ∧ m.id? = some i ∧ i ∈ st.pending ∧
      (∀ e, m.error? = some e → out = MCPOutcome.failure e) ∧
      (m.error? = none → out = MCPOutcome.success m.result?) := by
  cases l with
  | garbage => simp [MCPClient.processLine] at h
  | msg m =>
    obtain ⟨mid, merr, mres⟩ := m
    cases mid with
    | none => simp [MCPClient.processLine] at h
    | some j =>
      by_cases hmem : j ∈ st.pending
      · simp only [MCPClient.processLine, if_pos hmem, Prod.mk.injEq,
          Option.some.injEq] at h
        obtain ⟨hst, hij, hout⟩ := h
        subst hij
        subst hst
        have hnm : j ∉ st.pending.filter (fun x => x != j) := by
          simp [List.mem_filter]
        refine ⟨hnm, ?_, ⟨⟨some j, merr, mres⟩, rfl, rfl, hmem, ?_, ?_⟩⟩
        · simp only [MCPClient.processLine, if_neg hnm]
        · intro e he
          subst he
          exact hout.symm
        · intro he
          subst he
          exact hout.symm
      · simp [MCPClient.processLine, hmem] at h

/-- Witness for C1 at a concrete client state and reply line. -/
theorem pending_resolution_exactly_once_witness :
    1 ∉ c1StateAfter.pending ∧
    MCPClient.processLine c1StateAfter c1Msg = (c1StateAfter, none) ∧
    ∃ m : RpcMessage, c1Msg = MCPLine.msg m ∧ m.id? = some 1 ∧ 1 ∈ c1State.pending ∧
      (∀ e, m.error? = some e → MCPOutcome.success (some (JVal.num 7)) = MCPOutcome.failure e) ∧
      (m.error? = none →
        MCPOutcome.success (some (JVal.num 7)) = MCPOutcome.success m.result?) :=
  pending_resolution_exactly_once c1State c1StateAfter c1Msg 1
    (MCPOutcome.success (some (JVal.num 7))) rfl

/-- Claim C2: a request that hits the 30 s deadline has its pending entry
evicted and a timeout failure returned to the caller, and a late reply
carrying that id afterwards is dropped by the reader with no outcome
delivered and no change to the pending table. -/
theorem timeout_evicts_and_late_reply_dropped
    (st : MCPClientState) (method : String) (h : st.processAlive = true) :
    (MCPClient.sendRequest st method none).2 =
      Except.error (MCPError.requestTimeout method) ∧
    st.requestId + 1 ∉ (MCPClient.sendRequest st method none).1.pending ∧
    ∀ m : RpcMessage, m.id? = some (st.requestId + 1) →
      MCPClient.processLine (MCPClient.sendRequest st method none).1 (MCPLine.msg m) =
        ((MCPClient.sendRequest st method none).1, none) := by
  have hs : MCPClient.sendRequest st method none =
      ({ st with
          requestId := st.requestId + 1
          pending := (((st.requestId + 1) :: st.pending.filter
              (fun j => j != st.requestId + 1)).filter
            (fun j => j != st.requestId + 1)) },
       Except.error (MCPError.requestTimeout method)) := by
    simp [MCPClient.sendRequest, h]
  have hnm : st.requestId + 1 ∉
      ((st.requestId + 1) :: st.pending.filter
          (fun j => j != st.requestId + 1)).filter
        (fun j => j != st.requestId + 1) := by
    simp [List.mem_filter]
  refine ⟨by rw [hs], by rw [hs]; exact hnm, ?_⟩
  intro m hm
  rw [hs]
  obtain ⟨mid, merr, mres⟩ := m
  simp only at hm
  subst hm
  simp only [MCPClient.processLine, if_neg hnm]

/-- Witness for C2 at a concrete client state and late reply. -/
theorem timeout_evicts_and_late_reply_dropped_witness :
    (MCPClient.sendRequest c2State "tools/list" none).2 =
      Except.error (MCPError.requestTimeout "tools/list") ∧
    MCPClient.processLine (MCPClient.sendRequest c2State "tools/list" none).1
        (MCPLine.msg c2Late) =
      ((MCPClient.sendRequest c2State "tools/list" none).1, none) :=
  ⟨(timeout_evicts_and_late_reply_dropped c2State "tools/list" rfl).1,
   (timeout_evicts_and_late_reply_dropped c2State "tools/list" rfl).2.2 c2Late rfl⟩

/-- Claim C8: `disconnect()` is idempotent and total — after any call the
tool list is empty, the connected flag is cleared and the process handle
is gone, and a second call leaves the state unchanged. -/
theorem disconnect_idempotent_total (st : MCPClientState) :
    MCPClient.disconnect (MCPClient.disconnect st) = MCPClient.disconnect st ∧
    (MCPClient.disconnect st).tools = [] ∧
    (MCPClient.disconnect st).connected = false ∧
    (MCPClient.disconnect st).processAlive = false :=
  ⟨rfl, rfl, rfl, rfl⟩

/-- Counterexample to claim C3 as stated: on a never-connected client,
`list_resources()` does not fail — it returns a successful empty list
(without sending any request), unlike `call_tool` and `read_resource`,
which raise. -/
theorem not_connected_list_resources_returns_ok_cex :
    c3State.connected = false ∧
    MCPClient.list_resources c3State none = (c3State, Except.ok []) :=
  ⟨rfl, rfl⟩

/-- Claim C3 (amended): on a Client that is not connected, `call_tool` and
`read_resource` fail immediately and `list_resources` immediately returns
an empty successful result; none of the three sends a request (the state,
including the id counter and the pending table, is untouched). -/
theorem not_connected_ops_send_nothing
    (st : MCPClientState) (h : st.connected = false)
    (toolName uri : String) (args : JVal) (timely : Option MCPOutcome) :
    MCPClient.call_tool st toolName args timely =
      (st, Except.error (MCPError.notConnected st.config.name)) ∧
    MCPClient.read_resource st uri timely =
      (st, Except.error (MCPError.notConnected st.config.name)) ∧
    MCPClient.list_resources st timely = (st, Except.ok []) := by
  refine ⟨?_, ?_, ?_⟩ <;>
    simp [MCPClient.call_tool, MCPClient.read_resource, MCPClient.list_resources, h]

/-- Witness for the amended C3 at a concrete never-connected client. -/
theorem not_connected_ops_send_nothing_witness :
    MCPClient.call_tool c3State "read_file" JVal.null none =
      (c3State, Except.error (MCPError.notConnected c3State.config.name)) ∧
    MCPClient.read_resource c3State "file:///tmp/x" none =
      (c3State, Except.error (MCPError.notConnected c3State.config.name)) ∧
    MCPClient.list_resources c3State none = (c3State, Except.ok []) :=
  not_connected_ops_send_nothing c3State rfl "read_file" "file:///tmp/x" JVal.null none

/-- Python `s.split(sep, 1)` yields the part before the first separator
untouched when the left part contains no separator. -/
theorem splitOnce_append (s t : List Char) (h : '_' ∉ s) :
    MCPManager.splitOnce (s ++ '_' :: t) = some (s, t) := by
  induction s with
  | nil => simp [MCPManager.splitOnce]
  | cons c cs ih =>
    have hc : ¬c = '_' := fun hc => h (by simp [hc])
    have hcs : '_' ∉ cs := fun hm => h (List.mem_cons_of_mem _ hm)
    simp only [List.cons_append, MCPManager.splitOnce, if_neg hc, List.append_eq]
    rw [ih hcs]
    rfl

/-- Claim C4: for a server name without an underscore, qualifying a
(server, tool) pair as `get_tools_for_llm` does and parsing it back as
`Manager.call_tool` does (strip the `mcp_` marker, split once on the
first underscore) returns exactly the original pair. -/
theorem qualified_name_round_trip (server tool : String) (h : '_' ∉ server.data) :
    MCPManager.dequalify (MCPManager.qualify server tool) = some (server, tool) := by
  obtain ⟨sd⟩ := server
  obtain ⟨td⟩ := tool
  have hq : MCPManager.qualify ⟨sd⟩ ⟨td⟩ =
      String.mk ('m' :: 'c' :: 'p' :: '_' :: (sd ++ '_' :: td)) := by
    show String.mk ('m' :: 'c' :: 'p' :: '_' :: ((sd ++ ['_']) ++ td)) = _
    rw [List.append_assoc]
    rfl
  rw [hq]
  show (MCPManager.splitOnce (sd ++ '_' :: td)).map
      (fun p => (String.mk p.1, String.mk p.2)) = some (⟨sd⟩, ⟨td⟩)
  rw [splitOnce_append sd td h]
  rfl

/-- Witness for C4 at a concrete server/tool pair. -/
theorem qualified_name_round_trip_witness :
    MCPManager.dequalify (MCPManager.qualify "fs" "read_file") = some ("fs", "read_file") :=
  qualified_name_round_trip "fs" "read_file" (by decide)

/-- Claim C9: when the handshake succeeds but the `tools/list` discovery
request fails (times out or returns an error), `connect()` still returns
`true` and marks the client connected, with an empty tool catalog: the
discovery failure is swallowed inside `_fetch_tools`. -/
theorem discovery_failure_still_connects
    (cfg : MCPServerConfig) (env : ConnectEnv) (r : JVal)
    (hspawn : env.spawnOk = true)
    (hinit : env.initReply = some (MCPOutcome.success (some r)))
    (htruthy : r.truthy = true)
    (hnotify : env.notifyOk = true)
    (htools : env.toolsReply = none ∨ ∃ e, env.toolsReply = some (MCPOutcome.failure e)) :
    ∃ st' : MCPClientState,
      MCPClient.connect (MCPClient.new cfg) env = (st', Except.ok true) ∧
      st'.connected = true ∧ st'.tools = [] := by
  obtain ⟨es, ei, en, et⟩ := env
  simp only at hspawn hinit hnotify
  subst hspawn
  subst hinit
  subst hnotify
  refine ⟨{ config := cfg, processAlive := true, readerRunning := true, tools := []
          , requestId := 1, pending := [], connected := true }, ?_, rfl, rfl⟩
  rcases htools with ht | ⟨e, ht⟩ <;> simp only at ht <;> subst ht <;>
    simp [MCPClient.connect, MCPClient.connectAux, MCPClient.sendRequest,
      MCPClient.new, MCPClient.fetchToolsApply, truthyOpt, htruthy]

/-- Witness for C9 at a concrete configuration and environment. -/
theorem discovery_failure_still_connects_witness :
    ∃ st' : MCPClientState,
      MCPClient.connect (MCPClient.new sampleConfig) c9Env = (st', Except.ok true) ∧
      st'.connected = true ∧ st'.tools = [] :=
  discovery_failure_still_connects sampleConfig c9Env (JVal.bool true)
    rfl rfl rfl rfl (Or.inr ⟨"boom", rfl⟩)

/-- Counterexample to claim C6 as stated: a failure in the tool-discovery
step of the `connect()` sequence does not produce a `false` return —
`connect()` returns `true` (the failure is swallowed inside
`_fetch_tools`), so not every caught failure is converted into `false`. -/
theorem connect_true_despite_discovery_failure_cex :
    c6Env.toolsReply = some (MCPOutcome.failure "discovery failed") ∧
    (MCPClient.connect (MCPClient.new sampleConfig) c6Env).2 = Except.ok true :=
  ⟨rfl, rfl⟩

/-- Claim C6 (amended): `connect()` never propagates an exception to its
caller — its exception channel is always `ok` — and any exception raised
inside its body (process spawn, handshake request, initialized
notification) is caught and converted into a `false` return; a failure of
the `tools/list` discovery request, however, is swallowed inside
`_fetch_tools` (the state is left unchanged there) and does not force a
`false` return. -/
theorem connect_never_raises_and_catches
    (st : MCPClientState) (env : ConnectEnv) :
    (∃ st' b, MCPClient.connect st env = (st', Except.ok b)) ∧
    (∀ st2 e, MCPClient.connectAux st env = (st2, Except.error e) →
      MCPClient.connect st env = (st2, Except.ok false)) ∧
    (∀ st2 : MCPClientState, MCPClient.fetchToolsApply st2 none = st2 ∧
      ∀ e, MCPClient.fetchToolsApply st2 (some (MCPOutcome.failure e)) = st2) := by
  refine ⟨?_, ?_, ?_⟩
  · rcases hca : MCPClient.connectAux st env with ⟨st', r⟩
    cases r with
    | ok b => exact ⟨st', b, by simp only [MCPClient.connect, hca]⟩
    | error e => exact ⟨st', false, by simp only [MCPClient.connect, hca]⟩
  · intro st2 e h
    simp only [MCPClient.connect, h]
  · intro st2
    exact ⟨rfl, fun _ => rfl⟩

/-- Witness for the amended C6: a spawn failure is caught and yields a
`false` return with no exception. -/
theorem connect_never_raises_and_catches_witness :
    MCPClient.connect (MCPClient.new sampleConfig) c6FailEnv =
      (MCPClient.new sampleConfig, Except.ok false) :=
  (connect_never_raises_and_catches (MCPClient.new sampleConfig) c6FailEnv).2.1
    (MCPClient.new sampleConfig) (MCPError.spawnFailed sampleConfig.command) rfl

/-- Tool discovery never touches the connected flag. -/
theorem fetchToolsApply_connected (s : MCPClientState) (rep : Option MCPOutcome) :
    (MCPClient.fetchToolsApply s rep).connected = s.connected := by
  cases rep with
  | none => rfl
  | some o =>
    cases o with
    | failure e => rfl
    | success r => rfl

/-- A `true` return from `connect` implies the resulting client state has
its connected flag set. -/
theorem connect_true_connected (st st' : MCPClientState) (env : ConnectEnv)
    (h : MCPClient.connect st env = (st', Except.ok true)) :
    st'.connected = true := by
  rcases hca : MCPClient.connectAux st env with ⟨s2, r⟩
  cases r with
  | error e => simp [MCPClient.connect, hca] at h
  | ok b =>
    simp only [MCPClient.connect, hca, Prod.mk.injEq, Except.ok.injEq] at h
    obtain ⟨hs, hb⟩ := h
    subst hs
    subst hb
    obtain ⟨es, ei, en, et⟩ := env
    cases es with
    | false => simp [MCPClient.connectAux] at hca
    | true =>
      cases ei with
      | none => simp [MCPClient.connectAux, MCPClient.sendRequest] at hca
      | some o =>
        cases o with
        | failure e => simp [MCPClient.connectAux, MCPClient.sendRequest] at hca
        | success r =>
          cases en with
          | false =>
            simp [MCPClient.connectAux, MCPClient.sendRequest] at hca
            cases htr : truthyOpt r with
            | false => simp [htr] at hca
            | true => simp [htr] at hca
          | true =>
            cases htr : truthyOpt r with
            | false =>
              simp [MCPClient.connectAux, MCPClient.sendRequest, htr] at hca
            | true =>
              simp only [MCPClient.connectAux, MCPClient.sendRequest, htr,
                Bool.true_eq_false, if_false, if_true, ite_true, ite_false,
                Prod.mk.injEq, Except.ok.injEq] at hca
              obtain ⟨hst, -⟩ := hca
              rw [← hst, fetchToolsApply_connected]

/-- Claim C7: running `connect_all` over two enabled configs, one whose
connection succeeds and one whose connection fails, registers the
successful one as a connected client and leaves the failing one out of the
registry — in either list order, so one server's failure never prevents a
later server from being attempted. -/
theorem connect_all_partial_failure
    (cfgA cfgB : MCPServerConfig) (stA stB : MCPClientState)
    (env : String → ConnectEnv)
    (hEA : cfgA.enabled = true) (hEB : cfgB.enabled = true)
    (hne : cfgA.name ≠ cfgB.name)
    (hA : MCPClient.connect (MCPClient.new cfgA) (env cfgA.name) = (stA, Except.ok true))
    (hB : MCPClient.connect (MCPClient.new cfgB) (env cfgB.name) = (stB, Except.ok false)) :
    (MCPManager.getClient
        (MCPManager.connect_all ⟨[], [cfgA, cfgB], false⟩ env).clients cfgA.name =
          some stA ∧
      MCPManager.getClient
        (MCPManager.connect_all ⟨[], [cfgA, cfgB], false⟩ env).clients cfgB.name =
          none) ∧
    (MCPManager.getClient
        (MCPManager.connect_all ⟨[], [cfgB, cfgA], false⟩ env).clients cfgA.name =
          some stA ∧
      MCPManager.getClient
        (MCPManager.connect_all ⟨[], [cfgB, cfgA], false⟩ env).clients cfgB.name =
          none) ∧
    stA.connected = true := by
  have hab : (cfgA.name == cfgB.name) = false := beq_eq_false_iff_ne.mpr hne
  have hba : (cfgB.name == cfgA.name) = false := beq_eq_false_iff_ne.mpr (Ne.symm hne)
  refine ⟨⟨?_, ?_⟩, ⟨?_, ?_⟩, connect_true_connected _ _ _ hA⟩ <;>
    simp [MCPManager.connect_all, MCPManager.connectAllStep, MCPManager.setClient,
      MCPManager.getClient, hEA, hEB, hA, hB, hab, hba]

/-- Witness for C7 at concrete configs: `fs` (healthy) and `bad`
(nonexistent command). -/
theorem connect_all_partial_failure_witness :
    (MCPManager.getClient
        (MCPManager.connect_all ⟨[], [sampleConfig, c7BadConfig], false⟩ c7Env).clients
        sampleConfig.name = some c7StateA ∧
      MCPManager.getClient
        (MCPManager.connect_all ⟨[], [sampleConfig, c7BadConfig], false⟩ c7Env).clients
        c7BadConfig.name = none) ∧
    (MCPManager.getClient
        (MCPManager.connect_all ⟨[], [c7BadConfig, sampleConfig], false⟩ c7Env).clients
        sampleConfig.name = some c7StateA ∧
      MCPManager.getClient
        (MCPManager.connect_all ⟨[], [c7BadConfig, sampleConfig], false⟩ c7Env).clients
        c7BadConfig.name = none) ∧
    c7StateA.connected = true :=
  connect_all_partial_failure sampleConfig c7BadConfig c7StateA
    (MCPClient.new c7BadConfig) c7Env rfl rfl (by decide) rfl rfl

/-- A registry with no entry under a key yields no client for it. -/
theorem getClient_none_of_any_false (cs : List (String × MCPClientState)) (n : String)
    (h : cs.any (fun p => p.1 == n) = false) :
    MCPManager.getClient cs n = none := by
  rw [MCPManager.getClient, List.find?_eq_none.mpr (List.any_eq_false.mp h)]
  rfl

/-- Deleting a key from the registry leaves no client under it. -/
theorem getClient_delClient (cs : List (String × MCPClientState)) (n : String) :
    MCPManager.getClient (MCPManager.delClient cs n) n = none := by
  rw [MCPManager.getClient, MCPManager.delClient, List.find?_eq_none.mpr]
  · rfl
  · intro p hp
    rcases List.mem_filter.mp hp with ⟨-, hpn⟩
    simp only [bne_iff_ne, ne_eq] at hpn
    simp [hpn]

/-- Claim C10: for a name with no `ServerConfig` in the manager's config
list, `reconnect(name)` returns `false`, after first disconnecting and
removing any existing live client under that name, so the name is absent
from the live-client registry afterwards. -/
theorem reconnect_unknown_name
    (m : MCPManagerState) (name : String) (env : ConnectEnv)
    (h : ∀ c ∈ m.configs, c.name ≠ name) :
    (MCPManager.reconnect m name env).2 = false ∧
    MCPManager.getClient (MCPManager.reconnect m name env).1.clients name = none := by
  have hfind : m.configs.find? (fun c => c.name == name) = none := by
    rw [List.find?_eq_none]
    intro c hc
    simp [h c hc]
  cases hany : m.clients.any (fun p => p.1 == name) with
  | false =>
    simp only [MCPManager.reconnect, hany, Bool.false_eq_true, if_false, hfind]
    exact ⟨trivial, getClient_none_of_any_false m.clients name hany⟩
  | true =>
    simp only [MCPManager.reconnect, hany, if_true, hfind]
    exact ⟨trivial, getClient_delClient m.clients name⟩

/-- Witness for C10 at a concrete manager holding a client and a config
named `fs`, reconnecting the unknown name `ghost`. -/
theorem reconnect_unknown_name_witness :
    (MCPManager.reconnect c10Manager "ghost" c10Env).2 = false ∧
    MCPManager.getClient (MCPManager.reconnect c10Manager "ghost" c10Env).1.clients
      "ghost" = none :=
  reconnect_unknown_name c10Manager "ghost" c10Env (by decide)

/-- The object-form loop, run over keys none of which collide with each
other or with the accumulator, appends exactly one config per
command-carrying entry. -/
theorem loadObjectForm_no_collision
    (l : List (String × RawEntry)) (acc : List MCPServerConfig)
    (hnd : (l.map Prod.fst).Nodup)
    (hdisj : ∀ p ∈ l, ∀ cfg ∈ acc, cfg.name ≠ p.1) :
    MCPManager.loadObjectForm acc l = acc ++ l.filterMap objEntryConfig := by
  induction l generalizing acc with
  | nil => simp [MCPManager.loadObjectForm]
  | cons p rest ih =>
    obtain ⟨n, e⟩ := p
    rw [List.map_cons] at hnd
    have hn_notin : n ∉ rest.map Prod.fst := (List.nodup_cons.mp hnd).1
    have hnd' : (rest.map Prod.fst).Nodup := (List.nodup_cons.mp hnd).2
    cases hcmd : e.command? with
    | none =>
      rw [MCPManager.loadObjectForm]
      simp only [hcmd]
      rw [ih acc hnd' (fun q hq cfg hcfg => hdisj q (List.mem_cons_of_mem _ hq) cfg hcfg)]
      simp [List.filterMap_cons, objEntryConfig, hcmd]
    | some c =>
      have hany : acc.any (fun cfg => cfg.name == n) = false := by
        rw [List.any_eq_false]
        intro cfg hcfg
        simp [hdisj (n, e) (List.mem_cons_self _ _) cfg hcfg]
      have hdisj' : ∀ q ∈ rest,
          ∀ cfg ∈ acc ++ [({ name := n, command := c, args := e.args, env := e.env
                           , enabled := e.enabled?.getD true } : MCPServerConfig)],
          cfg.name ≠ q.1 := by
        intro q hq cfg hcfg
        rcases List.mem_append.mp hcfg with hin | hin
        · exact hdisj q (List.mem_cons_of_mem _ hq) cfg hin
        · rw [List.mem_singleton.mp hin]
          show n ≠ q.1
          intro hqn
          exact hn_notin (hqn ▸ List.mem_map_of_mem Prod.fst hq)
      rw [MCPManager.loadObjectForm]
      simp only [hcmd, hany, Bool.false_eq_true, if_false]
      rw [ih _ hnd' hdisj']
      simp [List.filterMap_cons, objEntryConfig, hcmd, List.append_assoc]

/-- Claim C5: loading a server set from the array-shaped form and loading
the equivalent name-keyed object form produce identical resulting config
sets, independent of the object form's entry order; and an object-form
entry whose key equals an already-loaded config's name is skipped rather
than added. -/
theorem config_shapes_load_equivalently
    (entries entries' : List (String × RawEntry))
    (hperm : entries'.Perm entries)
    (hnd : (entries.map Prod.fst).Nodup)
    (hnames : ∀ p ∈ entries, p.2.name? = some p.1) :
    (MCPManager.load_config_from_file (ConfigSource.objectForm entries')).Perm
      (MCPManager.load_config_from_file
        (ConfigSource.arrayForm (entries.map Prod.snd))) ∧
    ∀ (acc : List MCPServerConfig) (n : String) (e : RawEntry)
      (rest : List (String × RawEntry)),
      (∃ cfg ∈ acc, cfg.name = n) →
      MCPManager.loadObjectForm acc ((n, e) :: rest) =
        MCPManager.loadObjectForm acc rest := by
  constructor
  · have hnd' : (entries'.map Prod.fst).Nodup :=
      ((hperm.map Prod.fst).nodup_iff).mpr hnd
    have hobj : MCPManager.load_config_from_file (ConfigSource.objectForm entries') =
        entries'.filterMap objEntryConfig := by
      rw [MCPManager.load_config_from_file,
        loadObjectForm_no_collision entries' [] hnd'
          (fun p _ cfg hcfg => absurd hcfg (List.not_mem_nil cfg))]
      simp
    have harr : MCPManager.load_config_from_file
        (ConfigSource.arrayForm (entries.map Prod.snd)) =
        entries.filterMap objEntryConfig := by
      rw [MCPManager.load_config_from_file, MCPManager.loadArrayForm, List.filterMap_map]
      apply List.filterMap_congr
      intro p hp
      simp [Function.comp, objEntryConfig, hnames p hp]
    rw [hobj, harr]
    exact hperm.filterMap objEntryConfig
  · intro acc n e rest h
    obtain ⟨cfg, hcfg, hname⟩ := h
    cases hcmd : e.command? with
    | none =>
      rw [MCPManager.loadObjectForm]
      simp only [hcmd]
    | some c =>
      have hany : acc.any (fun cfg2 => cfg2.name == n) = true :=
        List.any_eq_true.mpr ⟨cfg, hcfg, by simp [hname]⟩
      rw [MCPManager.loadObjectForm]
      simp only [hcmd, hany, if_true]

/-- Witness for C5 at a concrete two-server set given in both orders,
plus a concrete skipped duplicate. -/
theorem config_shapes_load_equivalently_witness :
    (MCPManager.load_config_from_file (ConfigSource.objectForm c5EntriesRev)).Perm
      (MCPManager.load_config_from_file
        (ConfigSource.arrayForm (c5Entries.map Prod.snd))) ∧
    MCPManager.loadObjectForm c5Acc [("a", c5EntryA)] =
      MCPManager.loadObjectForm c5Acc [] := by
  obtain ⟨h1, h2⟩ :=
    config_shapes_load_equivalently c5Entries c5EntriesRev (by decide) (by decide)
      (by decide)
  exact ⟨h1, h2 c5Acc "a" c5EntryA [] (by decide)⟩
